import Mathlib

/-!
Verification development for the go-asynq demo repository.

The repository consists of `common/task.go` (payload struct definitions and
the three business handlers) and `main.go` (Asynq wrapper handlers, the demo
driver that enqueues sample tasks, and the graceful-shutdown sequence).
Payload bytes travel as JSON produced by Go `encoding/json`.

The embedding below models:
* the subset of Go `encoding/json` behavior exercised by the three payload
  structs (objects whose fields are strings and 64-bit integers), at the
  level of Unicode scalar sequences (`List Char`); byte sequences are the
  UTF-8 encodings of these, and UTF-8 encoding is injective, so equality of
  `List Char` values coincides with byte-level equality;
* the data and handlers of `common/task.go`;
* the wrapper handlers and driver of `main.go` as data (payload lists,
  enqueue calls, order of events in `main`);
* the parts of the task-queue core that live in the wrapped Asynq library,
  modelled from the spec where a claim needs them (retry/archive machine,
  weighted round-robin dispatch, scheduler entry firing, opaque delivery of
  payload bytes).
-/

namespace GoJson

/-- Lowercase hexadecimal digit, as produced by Go `encoding/json`
(`hex = "0123456789abcdef"`). Defined for `n < 16`. -/
def hexDigitChar (n : Nat) : Char :=
  if n < 10 then Char.ofNat (48 + n) else Char.ofNat (87 + n)

/-- Decode one hexadecimal digit character; the Go JSON decoder accepts
`0-9`, `a-f` and `A-F` in `\uXXXX` escapes. -/
def fromHexDigit (c : Char) : Option Nat :=
  if 48 ≤ c.toNat ∧ c.toNat ≤ 57 then some (c.toNat - 48)
  else if 97 ≤ c.toNat ∧ c.toNat ≤ 102 then some (c.toNat - 87)
  else if 65 ≤ c.toNat ∧ c.toNat ≤ 70 then some (c.toNat - 55)
  else none

/-- Escape one character the way Go `encoding/json.Marshal` does with its
default HTML escaping: `"` and `\` are backslash-escaped, newline, carriage
return and tab use their short escapes, other control characters become
`\u00XX`, the HTML-sensitive `<`, `>`, `&` and the line separators U+2028 and
U+2029 become `\u`-escapes, and every other character is emitted verbatim. -/
def escGoChar (c : Char) : List Char :=
  if c = '"' then ['\\', '"']
  else if c = '\\' then ['\\', '\\']
  else if c = '\n' then ['\\', 'n']
  else if c = '\r' then ['\\', 'r']
  else if c = '\t' then ['\\', 't']
  else if c.toNat < 32 then
    ['\\', 'u', '0', '0', hexDigitChar (c.toNat / 16), hexDigitChar (c.toNat % 16)]
  else if c = '<' then ['\\', 'u', '0', '0', '3', 'c']
  else if c = '>' then ['\\', 'u', '0', '0', '3', 'e']
  else if c = '&' then ['\\', 'u', '0', '0', '2', '6']
  else if c.toNat = 0x2028 then ['\\', 'u', '2', '0', '2', '8']
  else if c.toNat = 0x2029 then ['\\', 'u', '2', '0', '2', '9']
  else [c]

/-- Encode a string as a Go JSON string literal: quote, escaped body, quote. -/
def encGoString (s : List Char) : List Char :=
  '"' :: (s.flatMap escGoChar ++ ['"'])

/-- Prepend a decoded character to the result of parsing the rest of a
string body. -/
def consCh (c : Char) (r : Option (List Char × List Char)) :
    Option (List Char × List Char) :=
  r.map fun p => (c :: p.1, p.2)

/-- Parse the body of a JSON string literal (the opening quote already
consumed), returning the decoded characters and the input past the closing
quote. Mirrors the Go decoder: short escapes, `\uXXXX` escapes, rejection of
raw control characters. -/
def parseGoStringBody : List Char → Option (List Char × List Char)
  | [] => none
  | c :: rest =>
    if c = '"' then some ([], rest)
    else if c = '\\' then
      match rest with
      | [] => none
      | e :: r2 =>
        if e = '"' then consCh '"' (parseGoStringBody r2)
        else if e = '\\' then consCh '\\' (parseGoStringBody r2)
        else if e = '/' then consCh '/' (parseGoStringBody r2)
        else if e = 'b' then consCh (Char.ofNat 8) (parseGoStringBody r2)
        else if e = 'f' then consCh (Char.ofNat 12) (parseGoStringBody r2)
        else if e = 'n' then consCh '\n' (parseGoStringBody r2)
        else if e = 'r' then consCh '\r' (parseGoStringBody r2)
        else if e = 't' then consCh '\t' (parseGoStringBody r2)
        else if e = 'u' then
          match r2 with
          | h1 :: h2 :: h3 :: h4 :: r3 =>
            match fromHexDigit h1, fromHexDigit h2, fromHexDigit h3, fromHexDigit h4 with
            | some a, some b, some c2, some d =>
              if Nat.isValidChar (((a * 16 + b) * 16 + c2) * 16 + d) then
                consCh (Char.ofNat (((a * 16 + b) * 16 + c2) * 16 + d)) (parseGoStringBody r3)
              else none
            | _, _, _, _ => none
          | _ => none
        else none
    else if c.toNat < 32 then none
    else consCh c (parseGoStringBody rest)

/-- Parse a JSON string literal including its opening quote. -/
def parseGoString (l : List Char) : Option (List Char × List Char) :=
  match l with
  | [] => none
  | c :: rest => if c = '"' then parseGoStringBody rest else none

/-- Decimal digit character for `d < 10`. -/
def digitChar (d : Nat) : Char :=
  Char.ofNat (48 + d)

/-- Numeric value of a decimal digit character. -/
def digitVal (c : Char) : Nat :=
  c.toNat - 48

/-- Is this character a decimal digit. -/
def isDigitCh (c : Char) : Bool :=
  decide (48 ≤ c.toNat) && decide (c.toNat ≤ 57)

/-- Consume a maximal run of decimal digits, folding them onto an
accumulator most-significant first. -/
def parseDigitsAux : Nat → List Char → Nat × List Char
  | acc, [] => (acc, [])
  | acc, c :: rest =>
    if isDigitCh c then parseDigitsAux (acc * 10 + digitVal c) rest
    else (acc, c :: rest)

/-- Parse a nonempty run of decimal digits into a natural number. -/
def parseNat : List Char → Option (Nat × List Char)
  | [] => none
  | c :: rest =>
    if isDigitCh c then some (parseDigitsAux (digitVal c) rest) else none

/-- Parse a JSON integer token: an optional minus sign followed by digits. -/
def parseIntTok : List Char → Option (Int × List Char)
  | [] => none
  | c :: rest =>
    if c = '-' then (parseNat rest).map fun p => (-(p.1 : Int), p.2)
    else (parseNat (c :: rest)).map fun p => ((p.1 : Int), p.2)

/-- Render the decimal digits of a positive natural number in front of an
accumulator, least-significant digit pushed first. -/
def natToDecAux : Nat → List Char → List Char
  | 0, acc => acc
  | n + 1, acc => natToDecAux ((n + 1) / 10) (digitChar ((n + 1) % 10) :: acc)
decreasing_by exact Nat.div_lt_self (Nat.succ_pos n) (by omega)

/-- Canonical decimal rendering of a natural number, as Go `strconv` emits. -/
def natToDec (n : Nat) : List Char :=
  if n = 0 then ['0'] else natToDecAux n []

/-- Canonical decimal rendering of an integer, as Go `encoding/json` emits
for `int64` fields. -/
def intToDec (i : Int) : List Char :=
  if i < 0 then '-' :: natToDec i.natAbs else natToDec i.toNat

/-- Is this character JSON insignificant whitespace (Go scanner set). -/
def isWsCh (c : Char) : Bool :=
  decide (c.toNat = 32) || decide (c.toNat = 9) || decide (c.toNat = 10) || decide (c.toNat = 13)

/-- Drop leading JSON whitespace. -/
def skipWs : List Char → List Char
  | [] => []
  | c :: rest => if isWsCh c then skipWs rest else c :: rest

/-- JSON values that can appear as a field of the payload structs: strings,
integers, `null` and booleans. Composite values (nested objects and arrays)
are not modelled; the three payload structs have only string and integer
fields, for which Go `Unmarshal` reports a type error on a composite. -/
inductive JVal where
  | jstr (s : List Char)
  | jint (i : Int)
  | jnull
  | jbool (b : Bool)
deriving DecidableEq

/-- Render one JSON value as Go `encoding/json` does. -/
def renderJVal : JVal → List Char
  | .jstr s => encGoString s
  | .jint i => intToDec i
  | .jnull => ['n', 'u', 'l', 'l']
  | .jbool true => ['t', 'r', 'u', 'e']
  | .jbool false => ['f', 'a', 'l', 's', 'e']

/-- Render object members `"key":value` separated by commas, with no
whitespace, in order — exactly the element layout Go `Marshal` emits for a
struct (fields in declaration order under their json tags). -/
def renderMembers : List (List Char × JVal) → List Char
  | [] => []
  | [(k, v)] => encGoString k ++ (':' :: renderJVal v)
  | (k, v) :: m :: rest =>
    encGoString k ++ (':' :: (renderJVal v ++ (',' :: renderMembers (m :: rest))))

/-- Render a JSON object. -/
def renderObj (ms : List (List Char × JVal)) : List Char :=
  '{' :: (renderMembers ms ++ ['}'])

/-- Parse one JSON value (string, integer, `null` or boolean). -/
def parseValue (l : List Char) : Option (JVal × List Char) :=
  match skipWs l with
  | [] => none
  | c :: rest =>
    if c = '"' then (parseGoStringBody rest).map fun p => (JVal.jstr p.1, p.2)
    else if c = 'n' then
      match rest with
      | 'u' :: 'l' :: 'l' :: r => some (JVal.jnull, r)
      | _ => none
    else if c = 't' then
      match rest with
      | 'r' :: 'u' :: 'e' :: r => some (JVal.jbool true, r)
      | _ => none
    else if c = 'f' then
      match rest with
      | 'a' :: 'l' :: 's' :: 'e' :: r => some (JVal.jbool false, r)
      | _ => none
    else (parseIntTok (c :: rest)).map fun p => (JVal.jint p.1, p.2)

/-- Parse a nonempty comma-separated member list followed by the closing
brace. The fuel argument bounds the number of members and only ever needs to
exceed the member count. -/
def parseMembersAux : Nat → List Char → Option (List (List Char × JVal) × List Char)
  | 0, _ => none
  | fuel + 1, l =>
    match parseGoString (skipWs l) with
    | none => none
    | some (key, r1) =>
      match skipWs r1 with
      | ':' :: r2 =>
        match parseValue r2 with
        | none => none
        | some (v, r3) =>
          match skipWs r3 with
          | ',' :: r4 =>
            match parseMembersAux fuel r4 with
            | none => none
            | some (ms, r5) => some ((key, v) :: ms, r5)
          | '}' :: r4 => some ([(key, v)], r4)
          | _ => none
      | _ => none

/-- Parse a complete JSON object occupying the whole input (up to
insignificant whitespace), returning its members in order. This is the shape
of the inputs Go `Unmarshal` accepts for the payload structs. -/
def parseTopObject (l : List Char) : Option (List (List Char × JVal)) :=
  match skipWs l with
  | [] => none
  | c :: r =>
    if c = '{' then
      match skipWs r with
      | [] => none
      | c2 :: r2 =>
        if c2 = '}' then if (skipWs r2).isEmpty then some [] else none
        else
          match parseMembersAux ((c2 :: r2).length + 1) (c2 :: r2) with
          | none => none
          | some (ms, rest) => if (skipWs rest).isEmpty then some ms else none
    else none

/-- Little-endian list of decimal digits of a natural number; auxiliary view
of `natToDecAux` used by the read-back proofs. -/
def digitsRev : Nat → List Nat
  | 0 => []
  | n + 1 => (n + 1) % 10 :: digitsRev ((n + 1) / 10)
decreasing_by exact Nat.div_lt_self (Nat.succ_pos n) (by omega)

/-- The head of the input, if present, is not a decimal digit. -/
def headNotDigit : List Char → Bool
  | [] => true
  | c :: _ => !isDigitCh c

end GoJson

namespace Common

/-- Task type constant `TypeWelcomeMessage` from `common/task.go`. -/
def TypeWelcomeMessage : String := "welcome:message"

/-- Task type constant `TypeEmailTask` from `common/task.go`. -/
def TypeEmailTask : String := "email:send"

/-- Task type constant `TypeServerInfo` from `common/task.go`. -/
def TypeServerInfo : String := "server:info"

/-- `WelcomePayload` from `common/task.go`: fields `UserID int`,
`Username string`, `Message string` with json tags `user_id`, `username`,
`message`. -/
structure WelcomePayload where
  UserID : Int
  Username : String
  Message : String
deriving DecidableEq

/-- `EmailPayload` from `common/task.go`: fields `UserID int`,
`Email string`, `Subject string`, `Message string` with json tags
`user_id`, `email`, `subject`, `message`. -/
structure EmailPayload where
  UserID : Int
  Email : String
  Subject : String
  Message : String
deriving DecidableEq

/-- `ServerInfoPayload` from `common/task.go`: fields `Timestamp int64`,
`Source string` with json tags `timestamp`, `source`. -/
structure ServerInfoPayload where
  Timestamp : Int
  Source : String
deriving DecidableEq

/-- Go zero value of `WelcomePayload`, the starting point of
`json.Unmarshal` into a fresh variable. -/
def welcomeZero : WelcomePayload := ⟨0, "", ""⟩

/-- Go zero value of `EmailPayload`. -/
def emailZero : EmailPayload := ⟨0, "", "", ""⟩

/-- Go zero value of `ServerInfoPayload`. -/
def serverInfoZero : ServerInfoPayload := ⟨0, ""⟩

/-- The subset of `runtime.MemStats` read by `HandleServerInfoTask`
(`runtime.ReadMemStats`): unsigned counters, modelled as naturals. -/
structure MemStats where
  Alloc : Nat
  Sys : Nat
  HeapAlloc : Nat
  HeapSys : Nat
  HeapObjects : Nat
  NumGC : Nat
  PauseTotalNs : Nat
deriving DecidableEq

/-- Division whose call site must prove the divisor nonzero; used to embed
the guarded average-GC-pause expression of `HandleServerInfoTask`. -/
def checkedDiv (a b : Nat) (_h : b ≠ 0) : Nat :=
  a / b

/-- One line of formatted console output produced by the three handlers in
`common/task.go`, keeping the dynamic data each `Printf` interpolates. -/
inductive OutLine where
  | welcomeGreeting (username : String) (userID : Int) (message : String)
  | emailSending (email : String) (userID : Int)
  | emailSubject (subject : String)
  | emailMessage (message : String)
  | emailSent
  | infoHeader
  | infoTimestamp (ts : Int)
  | infoCPUCount (n : Nat)
  | infoGoroutines (n : Nat)
  | infoAllocBytes (n : Nat)
  | infoSysBytes (n : Nat)
  | infoGCCount (n : Nat)
  | infoAvgGCPause (ns : Nat)
  | infoAvgGCPauseNA
  | infoHeapAllocBytes (n : Nat)
  | infoHeapSysBytes (n : Nat)
  | infoHeapObjects (n : Nat)
  | infoSource (s : String)
  | infoDone
deriving DecidableEq

/-- The average-GC-pause line of `HandleServerInfoTask`: the division
`m.PauseTotalNs / uint64(m.NumGC)` is evaluated only under the guard
`m.NumGC > 0` (comment in the source: avoid division by zero), otherwise the
N/A line is printed. -/
def gcPauseLine (m : MemStats) : OutLine :=
  if h : 0 < m.NumGC then
    OutLine.infoAvgGCPause (checkedDiv m.PauseTotalNs m.NumGC (Nat.pos_iff_ne_zero.mp h))
  else OutLine.infoAvgGCPauseNA

/-- `common.HandleWelcomeTask`: prints the greeting and returns nil. The
`time.Sleep` is real time and has no effect on state or result. -/
def HandleWelcomeTask (p : WelcomePayload) : List OutLine × Except String Unit :=
  ([OutLine.welcomeGreeting p.Username p.UserID p.Message], Except.ok ())

/-- `common.HandleEmailTask`: prints the four email lines and returns nil. -/
def HandleEmailTask (p : EmailPayload) : List OutLine × Except String Unit :=
  ([OutLine.emailSending p.Email p.UserID, OutLine.emailSubject p.Subject,
    OutLine.emailMessage p.Message, OutLine.emailSent], Except.ok ())

/-- `common.HandleServerInfoTask`: reads `runtime.MemStats` (passed here as
an argument, together with the ambient CPU count and goroutine count it
prints), prints the report lines — including the guarded average-GC-pause
line — and returns nil. -/
def HandleServerInfoTask (m : MemStats) (numCPU numGoroutine : Nat)
    (p : ServerInfoPayload) : List OutLine × Except String Unit :=
  ([OutLine.infoHeader, OutLine.infoTimestamp p.Timestamp,
    OutLine.infoCPUCount numCPU, OutLine.infoGoroutines numGoroutine,
    OutLine.infoAllocBytes m.Alloc, OutLine.infoSysBytes m.Sys,
    OutLine.infoGCCount m.NumGC, gcPauseLine m,
    OutLine.infoHeapAllocBytes m.HeapAlloc, OutLine.infoHeapSysBytes m.HeapSys,
    OutLine.infoHeapObjects m.HeapObjects, OutLine.infoSource p.Source,
    OutLine.infoDone], Except.ok ())

end Common

namespace GoJson

open Common

/-- The member list Go `json.Marshal` produces for a `WelcomePayload`:
fields in declaration order under their json tags. -/
def welcomeMembers (p : WelcomePayload) : List (List Char × JVal) :=
  [("user_id".data, JVal.jint p.UserID),
   ("username".data, JVal.jstr p.Username.data),
   ("message".data, JVal.jstr p.Message.data)]

/-- Go `json.Marshal` applied to a `WelcomePayload`. -/
def marshalWelcomePayload (p : WelcomePayload) : List Char :=
  renderObj (welcomeMembers p)

/-- The member list Go `json.Marshal` produces for an `EmailPayload`. -/
def emailMembers (p : EmailPayload) : List (List Char × JVal) :=
  [("user_id".data, JVal.jint p.UserID),
   ("email".data, JVal.jstr p.Email.data),
   ("subject".data, JVal.jstr p.Subject.data),
   ("message".data, JVal.jstr p.Message.data)]

/-- Go `json.Marshal` applied to an `EmailPayload`. -/
def marshalEmailPayload (p : EmailPayload) : List Char :=
  renderObj (emailMembers p)

/-- The member list Go `json.Marshal` produces for a `ServerInfoPayload`. -/
def serverInfoMembers (p : ServerInfoPayload) : List (List Char × JVal) :=
  [("timestamp".data, JVal.jint p.Timestamp),
   ("source".data, JVal.jstr p.Source.data)]

/-- Go `json.Marshal` applied to a `ServerInfoPayload`. -/
def marshalServerInfoPayload (p : ServerInfoPayload) : List Char :=
  renderObj (serverInfoMembers p)

/-- Apply one parsed object member to a `WelcomePayload` being decoded, as
Go `json.Unmarshal` does: a known key of matching type sets the field, a
later duplicate overwrites, `null` is a no-op, a type mismatch is an error,
and unknown keys are ignored. (Go also matches keys case-insensitively as a
fallback; the driver and the encoder only ever produce the exact tags, which
is the behavior modelled here.) -/
def assignWelcome (p : WelcomePayload) : List Char × JVal → Option WelcomePayload
  | (k, v) =>
    if k = "user_id".data then
      match v with
      | JVal.jint i => some { p with UserID := i }
      | JVal.jnull => some p
      | _ => none
    else if k = "username".data then
      match v with
      | JVal.jstr s => some { p with Username := String.mk s }
      | JVal.jnull => some p
      | _ => none
    else if k = "message".data then
      match v with
      | JVal.jstr s => some { p with Message := String.mk s }
      | JVal.jnull => some p
      | _ => none
    else some p

/-- Go `json.Unmarshal` into a `WelcomePayload`. -/
def unmarshalWelcomePayload (l : List Char) : Option WelcomePayload :=
  (parseTopObject l).bind (List.foldlM assignWelcome welcomeZero)

/-- Apply one parsed object member to an `EmailPayload` being decoded. -/
def assignEmail (p : EmailPayload) : List Char × JVal → Option EmailPayload
  | (k, v) =>
    if k = "user_id".data then
      match v with
      | JVal.jint i => some { p with UserID := i }
      | JVal.jnull => some p
      | _ => none
    else if k = "email".data then
      match v with
      | JVal.jstr s => some { p with Email := String.mk s }
      | JVal.jnull => some p
      | _ => none
    else if k = "subject".data then
      match v with
      | JVal.jstr s => some { p with Subject := String.mk s }
      | JVal.jnull => some p
      | _ => none
    else if k = "message".data then
      match v with
      | JVal.jstr s => some { p with Message := String.mk s }
      | JVal.jnull => some p
      | _ => none
    else some p

/-- Go `json.Unmarshal` into an `EmailPayload`. -/
def unmarshalEmailPayload (l : List Char) : Option EmailPayload :=
  (parseTopObject l).bind (List.foldlM assignEmail emailZero)

/-- Apply one parsed object member to a `ServerInfoPayload` being decoded. -/
def assignServerInfo (p : ServerInfoPayload) : List Char × JVal → Option ServerInfoPayload
  | (k, v) =>
    if k = "timestamp".data then
      match v with
      | JVal.jint i => some { p with Timestamp := i }
      | JVal.jnull => some p
      | _ => none
    else if k = "source".data then
      match v with
      | JVal.jstr s => some { p with Source := String.mk s }
      | JVal.jnull => some p
      | _ => none
    else some p

/-- Go `json.Unmarshal` into a `ServerInfoPayload`. -/
def unmarshalServerInfoPayload (l : List Char) : Option ServerInfoPayload :=
  (parseTopObject l).bind (List.foldlM assignServerInfo serverInfoZero)

end GoJson

namespace Main

open Common GoJson

/-- A task envelope as built by `asynq.NewTask(type, payload)`: the type
tag and the opaque payload bytes. -/
structure TaskEnvelope where
  taskType : String
  payload : List Char
deriving DecidableEq

/-- `asynq.NewTask` from the driver: packs a type tag and payload bytes. -/
def newTask (t : String) (pl : List Char) : TaskEnvelope :=
  ⟨t, pl⟩

/-- Modelled from the spec: payload bytes are opaque to the core, and the
Dispatcher invokes the registered handler for the envelope's type with the
envelope's payload bytes unchanged (spec round-trip property: payload bytes
submitted by the Client are delivered byte-identical to the handler). The
store, dequeue and dispatch chain is the wrapped Asynq library and is not
part of this repository's sources. -/
def handlerInputBytes (e : TaskEnvelope) : List Char :=
  e.payload

/-- `main.HandleWelcomeTask`, the Asynq wrapper from `main.go`: unmarshal
the payload, return the wrapped decode error on failure without invoking
the common handler, otherwise delegate to `common.HandleWelcomeTask`. -/
def HandleWelcomeTask (t : TaskEnvelope) : List OutLine × Except String Unit :=
  match unmarshalWelcomePayload t.payload with
  | none => ([], Except.error "failed to unmarshal welcome payload")
  | some p => Common.HandleWelcomeTask p

/-- `main.HandleEmailTask`, the Asynq wrapper from `main.go`. -/
def HandleEmailTask (t : TaskEnvelope) : List OutLine × Except String Unit :=
  match unmarshalEmailPayload t.payload with
  | none => ([], Except.error "failed to unmarshal email payload")
  | some p => Common.HandleEmailTask p

/-- `main.HandleServerInfoTask`, the Asynq wrapper from `main.go`; the
ambient runtime statistics read by the common handler are passed through as
arguments. -/
def HandleServerInfoTask (m : MemStats) (numCPU numGoroutine : Nat)
    (t : TaskEnvelope) : List OutLine × Except String Unit :=
  match unmarshalServerInfoPayload t.payload with
  | none => ([], Except.error "failed to unmarshal server info payload")
  | some p => Common.HandleServerInfoTask m numCPU numGoroutine p

/-- Is this handler result an error (a non-nil Go error). -/
def resultIsError : Except String Unit → Bool
  | Except.error _ => true
  | Except.ok _ => false

/-- A scheduling modifier accepted by `client.Enqueue`: `asynq.ProcessIn`
(relative delay, here in milliseconds) or `asynq.ProcessAt` (absolute time,
here as a Unix timestamp). -/
inductive SchedOpt where
  | processIn (delayMs : Int)
  | processAt (unixTime : Int)
deriving DecidableEq

/-- Is this option a `ProcessIn` modifier. -/
def isProcessIn : SchedOpt → Bool
  | SchedOpt.processIn _ => true
  | _ => false

/-- Is this option a `ProcessAt` modifier. -/
def isProcessAt : SchedOpt → Bool
  | SchedOpt.processAt _ => true
  | _ => false

/-- Modelled from the spec: exactly one of `process_in`/`process_at` or
neither may be supplied on an enqueue — supplying both is a configuration
error. This validity check accepts an option list iff it does not contain
both kinds of modifier. -/
def schedOptsValid (opts : List SchedOpt) : Bool :=
  !(opts.any isProcessIn && opts.any isProcessAt)

/-- One `client.Enqueue` call issued by the demo driver: the task envelope
it submits and the option list it passes. -/
structure EnqueueCall where
  taskType : String
  payload : List Char
  opts : List SchedOpt
deriving DecidableEq

/-- The `welcomeTasks` sample slice from `main.go`. -/
def welcomeTasks : List WelcomePayload :=
  [⟨1, "Alice", "Welcome to our amazing platform!"⟩,
   ⟨2, "Bob", "Thanks for joining our community!"⟩,
   ⟨3, "Charlie", "We're excited to have you here!"⟩]

/-- The `emailTasks` sample slice from `main.go`. -/
def emailTasks : List EmailPayload :=
  [⟨4, "alice@example.com", "Welcome!", "Welcome to our platform, Alice!"⟩,
   ⟨5, "bob@example.com", "Getting Started", "Here are some tips to get you started, Bob."⟩,
   ⟨6, "charlie@example.com", "Weekly Newsletter", "Check out this week's highlights!"⟩]

/-- The welcome-task enqueue loop of `main.go`: even indices enqueue
immediately, odd indices pass `asynq.ProcessIn(i * 300ms)`. -/
def welcomeEnqueueCalls : List EnqueueCall :=
  welcomeTasks.enum.map fun it =>
    { taskType := TypeWelcomeMessage
      payload := marshalWelcomePayload it.2
      opts := if it.1 % 2 = 0 then [] else [SchedOpt.processIn ((it.1 : Int) * 300)] }

/-- The email-task enqueue loop of `main.go`: even indices enqueue
immediately, odd indices pass `asynq.ProcessIn((i + 1) * 500ms)`. -/
def emailEnqueueCalls : List EnqueueCall :=
  emailTasks.enum.map fun it =>
    { taskType := TypeEmailTask
      payload := marshalEmailPayload it.2
      opts := if it.1 % 2 = 0 then [] else [SchedOpt.processIn (((it.1 : Int) + 1) * 500)] }

/-- Every `client.Enqueue` call issued by the demo driver, in program
order. -/
def driverEnqueueCalls : List EnqueueCall :=
  welcomeEnqueueCalls ++ emailEnqueueCalls

/-- The observable steps of `main` in `main.go`, in program order. The
deferred `client.Close()` runs when `main` returns, after the post-signal
shutdown statements. -/
inductive MainEvent where
  | newClient
  | newServer
  | registerHandler (taskType : String)
  | startConsumer
  | newScheduler
  | registerSchedule (cronSpec : String) (taskType : String)
  | startScheduler
  | enqueueTask (taskType : String)
  | waitForSignal
  | shutdownScheduler
  | shutdownServer
  | waitConsumer
  | closeClient
deriving DecidableEq

/-- The sequence of steps `main` performs, read off `main.go` top to
bottom: client and server construction, the three `mux.HandleFunc`
registrations, launching the consumer goroutine (`srv.Run`), scheduler
construction, registering the periodic entry, starting the scheduler, the
six enqueue calls, blocking on SIGINT/SIGTERM, and the shutdown sequence
ending with the deferred `client.Close()`. -/
def mainEvents : List MainEvent :=
  [MainEvent.newClient,
   MainEvent.newServer,
   MainEvent.registerHandler TypeWelcomeMessage,
   MainEvent.registerHandler TypeEmailTask,
   MainEvent.registerHandler TypeServerInfo,
   MainEvent.startConsumer,
   MainEvent.newScheduler,
   MainEvent.registerSchedule "@every 30s" TypeServerInfo,
   MainEvent.startScheduler,
   MainEvent.enqueueTask TypeWelcomeMessage,
   MainEvent.enqueueTask TypeWelcomeMessage,
   MainEvent.enqueueTask TypeWelcomeMessage,
   MainEvent.enqueueTask TypeEmailTask,
   MainEvent.enqueueTask TypeEmailTask,
   MainEvent.enqueueTask TypeEmailTask,
   MainEvent.waitForSignal,
   MainEvent.shutdownScheduler,
   MainEvent.shutdownServer,
   MainEvent.waitConsumer,
   MainEvent.closeClient]

/-- Is this event a `mux.HandleFunc` registration. -/
def isRegisterHandler : MainEvent → Bool
  | MainEvent.registerHandler _ => true
  | _ => false

/-- Is this event one of the four shutdown steps. -/
def isShutdownStep : MainEvent → Bool
  | MainEvent.shutdownScheduler => true
  | MainEvent.shutdownServer => true
  | MainEvent.waitConsumer => true
  | MainEvent.closeClient => true
  | _ => false

/-- The task types registered on the mux before the consumer goroutine is
launched. -/
def handlersRegisteredBeforeStart : List String :=
  (mainEvents.takeWhile fun e => e ≠ MainEvent.startConsumer).filterMap fun e =>
    match e with
    | MainEvent.registerHandler t => some t
    | _ => none

/-- Every task type the driver enqueues via the client or binds to a
schedule entry. -/
def enqueuedOrScheduledTypes : List String :=
  mainEvents.filterMap fun e =>
    match e with
    | MainEvent.enqueueTask t => some t
    | MainEvent.registerSchedule _ t => some t
    | _ => none

/-- The queue priority weights of the `asynq.Config` in `main.go`. -/
def demoQueueWeights : List (String × Nat) :=
  [("critical", 6), ("default", 3), ("low", 1)]

/-- Modelled from the spec: the Dispatcher maintains a weighted round-robin
selection across the configured queues — one full cycle grants each queue a
number of dispatch opportunities equal to its weight. -/
def wrrCycle (ws : List (String × Nat)) : List String :=
  ws.flatMap fun qw => List.replicate qw.2 qw.1

/-- Modelled from the spec: the dispatch-opportunity sequence over `n`
weighted round-robin cycles. -/
def wrrSchedule (ws : List (String × Nat)) : Nat → List String
  | 0 => []
  | n + 1 => wrrSchedule ws n ++ wrrCycle ws

/-- Number of dispatch opportunities queue `q` receives in a dispatch
sequence. -/
def dispatchCount (q : String) (s : List String) : Nat :=
  s.count q

/-- The task lifecycle states of the spec data model. -/
inductive TaskLifecycleState where
  | pending
  | scheduled
  | active
  | retryWait
  | archived
deriving DecidableEq

/-- A stored task envelope's mutable bookkeeping, per the spec data model:
state, retry budget and count, next process time, last error. -/
structure StoredTask where
  state : TaskLifecycleState
  retryCount : Nat
  maxRetry : Nat
  processAt : Int
  lastError : Option String
deriving DecidableEq

/-- Modelled from the spec: `retry(task_id, error, backoff)` transitions
active→retry, increments `retry_count` and sets
`process_at = now + backoff`; if the incremented `retry_count` exceeds
`max_retry`, the task transitions to archived (dead) instead. -/
def retryTransition (now backoff : Int) (err : String) (t : StoredTask) : StoredTask :=
  if t.retryCount + 1 > t.maxRetry then
    { t with state := TaskLifecycleState.archived, lastError := some err }
  else
    { t with state := TaskLifecycleState.retryWait,
             retryCount := t.retryCount + 1,
             processAt := now + backoff,
             lastError := some err }

/-- A freshly enqueued task that has just been claimed for its first
execution attempt: active, zero retries used, the given retry budget. -/
def freshActiveTask (maxRetry : Nat) : StoredTask :=
  ⟨TaskLifecycleState.active, 0, maxRetry, 0, none⟩

/-- The task after `n` failed execution attempts of an always-failing
handler: each attempt ends in one `retryTransition`. -/
def afterFailures (now backoff : Int) (err : String) (t : StoredTask) : Nat → StoredTask
  | 0 => t
  | n + 1 => retryTransition now backoff err (afterFailures now backoff err t n)

/-- A schedule entry as registered by `scheduler.Register` in `main.go`:
the cron-like spec string bound to a fixed task template. -/
structure SchedulerEntry where
  cronSpec : String
  task : TaskEnvelope
deriving DecidableEq

/-- The periodic server-info entry `main.go` registers: the payload is
marshaled exactly once, before registration, from a `ServerInfoPayload`
carrying the registration-time clock value and source `periodic-monitor`;
the resulting bytes are bound into the entry's task template. -/
def registerServerInfoEntry (regTime : Int) : SchedulerEntry :=
  ⟨"@every 30s",
   newTask TypeServerInfo (marshalServerInfoPayload ⟨regTime, "periodic-monitor"⟩)⟩

/-- An envelope produced by one firing of a schedule entry. -/
structure FiredEnvelope where
  fireIndex : Nat
  enqueuedAt : Int
  taskType : String
  payload : List Char
deriving DecidableEq

/-- Modelled from the spec: each time a schedule entry's interval elapses,
the Scheduler enqueues the bound task template as a new envelope (fresh
identity, `process_at = now`); the type and the payload bytes come from the
template unchanged. -/
def entryFiring (e : SchedulerEntry) (fireIndex : Nat) (now : Int) : FiredEnvelope :=
  ⟨fireIndex, now, e.task.taskType, e.task.payload⟩

end Main

namespace GoJson

theorem fromHex_hexDigit : ∀ n, n < 16 → fromHexDigit (hexDigitChar n) = some n := by decide

theorem parseGoStringBody_quote (rest : List Char) :
    parseGoStringBody ('"' :: rest) = some ([], rest) := by
  rw [parseGoStringBody.eq_def]; simp +decide

theorem parseGoStringBody_escq (T : List Char) :
    parseGoStringBody ('\\' :: '"' :: T) = consCh '"' (parseGoStringBody T) := by
  rw [parseGoStringBody.eq_def]; simp +decide

theorem parseGoStringBody_escb (T : List Char) :
    parseGoStringBody ('\\' :: '\\' :: T) = consCh '\\' (parseGoStringBody T) := by
  rw [parseGoStringBody.eq_def]; simp +decide

theorem parseGoStringBody_escn (T : List Char) :
    parseGoStringBody ('\\' :: 'n' :: T) = consCh '\n' (parseGoStringBody T) := by
  rw [parseGoStringBody.eq_def]; simp +decide

theorem parseGoStringBody_escr (T : List Char) :
    parseGoStringBody ('\\' :: 'r' :: T) = consCh '\r' (parseGoStringBody T) := by
  rw [parseGoStringBody.eq_def]; simp +decide

theorem parseGoStringBody_esct (T : List Char) :
    parseGoStringBody ('\\' :: 't' :: T) = consCh '\t' (parseGoStringBody T) := by
  rw [parseGoStringBody.eq_def]; simp +decide

theorem parseGoStringBody_escu_ctrl (c : Char) (T : List Char) (h : c.toNat < 32) :
    parseGoStringBody ('\\' :: 'u' :: '0' :: '0' ::
      hexDigitChar (c.toNat / 16) :: hexDigitChar (c.toNat % 16) :: T) =
      consCh c (parseGoStringBody T) := by
  have hd : c.toNat / 16 < 16 := by omega
  have hm : c.toNat % 16 < 16 := by omega
  have h0 : fromHexDigit '0' = some 0 := by decide
  rw [parseGoStringBody.eq_def]
  simp +decide [fromHex_hexDigit _ hd, fromHex_hexDigit _ hm, h0]
  rw [show c.toNat / 16 * 16 + c.toNat % 16 = c.toNat from by omega]
  rw [if_pos (Or.inl (by omega) : Nat.isValidChar c.toNat), Char.ofNat_toNat]

theorem parseGoStringBody_esclt (T : List Char) :
    parseGoStringBody ('\\' :: 'u' :: '0' :: '0' :: '3' :: 'c' :: T) =
      consCh '<' (parseGoStringBody T) := by
  have h0 : fromHexDigit '0' = some 0 := by decide
  have h3 : fromHexDigit '3' = some 3 := by decide
  have hc : fromHexDigit 'c' = some 12 := by decide
  rw [parseGoStringBody.eq_def]
  simp +decide [h0, h3, hc]

theorem parseGoStringBody_escgt (T : List Char) :
    parseGoStringBody ('\\' :: 'u' :: '0' :: '0' :: '3' :: 'e' :: T) =
      consCh '>' (parseGoStringBody T) := by
  have h0 : fromHexDigit '0' = some 0 := by decide
  have h3 : fromHexDigit '3' = some 3 := by decide
  have he : fromHexDigit 'e' = some 14 := by decide
  rw [parseGoStringBody.eq_def]
  simp +decide [h0, h3, he]

theorem parseGoStringBody_escamp (T : List Char) :
    parseGoStringBody ('\\' :: 'u' :: '0' :: '0' :: '2' :: '6' :: T) =
      consCh '&' (parseGoStringBody T) := by
  have h0 : fromHexDigit '0' = some 0 := by decide
  have h2 : fromHexDigit '2' = some 2 := by decide
  have h6 : fromHexDigit '6' = some 6 := by decide
  rw [parseGoStringBody.eq_def]
  simp +decide [h0, h2, h6]

theorem parseGoStringBody_esc2028 (c : Char) (T : List Char) (h : c.toNat = 8232) :
    parseGoStringBody ('\\' :: 'u' :: '2' :: '0' :: '2' :: '8' :: T) =
      consCh c (parseGoStringBody T) := by
  have h0 : fromHexDigit '0' = some 0 := by decide
  have h2 : fromHexDigit '2' = some 2 := by decide
  have h8 : fromHexDigit '8' = some 8 := by decide
  rw [parseGoStringBody.eq_def]
  simp +decide [h0, h2, h8]
  rw [show (8232 : Nat) = c.toNat from h.symm, Char.ofNat_toNat]

theorem parseGoStringBody_esc2029 (c : Char) (T : List Char) (h : c.toNat = 8233) :
    parseGoStringBody ('\\' :: 'u' :: '2' :: '0' :: '2' :: '9' :: T) =
      consCh c (parseGoStringBody T) := by
  have h0 : fromHexDigit '0' = some 0 := by decide
  have h2 : fromHexDigit '2' = some 2 := by decide
  have h9 : fromHexDigit '9' = some 9 := by decide
  rw [parseGoStringBody.eq_def]
  simp +decide [h0, h2, h9]
  rw [show (8233 : Nat) = c.toNat from h.symm, Char.ofNat_toNat]

theorem parseGoStringBody_other (c : Char) (T : List Char) (h1 : c ≠ '"')
    (h2 : c ≠ '\\') (h3 : ¬c.toNat < 32) :
    parseGoStringBody (c :: T) = consCh c (parseGoStringBody T) := by
  rw [parseGoStringBody.eq_def]
  simp [h1, h2, h3]

theorem parseGoStringBody_enc : ∀ (s rest : List Char),
    parseGoStringBody (s.flatMap escGoChar ++ ('"' :: rest)) = some (s, rest) := by
  intro s
  induction s with
  | nil =>
    intro rest
    simp only [List.flatMap_nil, List.nil_append]
    exact parseGoStringBody_quote rest
  | cons c s ih =>
    intro rest
    rw [List.flatMap_cons, List.append_assoc]
    by_cases h1 : c = '"'
    · subst h1
      rw [show escGoChar '"' = ['\\', '"'] from rfl]
      simp only [List.cons_append, List.nil_append]
      rw [parseGoStringBody_escq, ih]; rfl
    by_cases h2 : c = '\\'
    · subst h2
      rw [show escGoChar '\\' = ['\\', '\\'] from rfl]
      simp only [List.cons_append, List.nil_append]
      rw [parseGoStringBody_escb, ih]; rfl
    by_cases h3 : c = '\n'
    · subst h3
      rw [show escGoChar '\n' = ['\\', 'n'] from rfl]
      simp only [List.cons_append, List.nil_append]
      rw [parseGoStringBody_escn, ih]; rfl
    by_cases h4 : c = '\r'
    · subst h4
      rw [show escGoChar '\r' = ['\\', 'r'] from rfl]
      simp only [List.cons_append, List.nil_append]
      rw [parseGoStringBody_escr, ih]; rfl
    by_cases h5 : c = '\t'
    · subst h5
      rw [show escGoChar '\t' = ['\\', 't'] from rfl]
      simp only [List.cons_append, List.nil_append]
      rw [parseGoStringBody_esct, ih]; rfl
    by_cases h6 : c.toNat < 32
    · have he : escGoChar c = ['\\', 'u', '0', '0',
          hexDigitChar (c.toNat / 16), hexDigitChar (c.toNat % 16)] := by
        unfold escGoChar
        rw [if_neg h1, if_neg h2, if_neg h3, if_neg h4, if_neg h5, if_pos h6]
      rw [he]
      simp only [List.cons_append, List.nil_append]
      rw [parseGoStringBody_escu_ctrl c _ h6, ih]; rfl
    by_cases h7 : c = '<'
    · subst h7
      rw [show escGoChar '<' = ['\\', 'u', '0', '0', '3', 'c'] from rfl]
      simp only [List.cons_append, List.nil_append]
      rw [parseGoStringBody_esclt, ih]; rfl
    by_cases h8 : c = '>'
    · subst h8
      rw [show escGoChar '>' = ['\\', 'u', '0', '0', '3', 'e'] from rfl]
      simp only [List.cons_append, List.nil_append]
      rw [parseGoStringBody_escgt, ih]; rfl
    by_cases h9 : c = '&'
    · subst h9
      rw [show escGoChar '&' = ['\\', 'u', '0', '0', '2', '6'] from rfl]
      simp only [List.cons_append, List.nil_append]
      rw [parseGoStringBody_escamp, ih]; rfl
    by_cases h10 : c.toNat = 8232
    · have he : escGoChar c = ['\\', 'u', '2', '0', '2', '8'] := by
        unfold escGoChar
        rw [if_neg h1, if_neg h2, if_neg h3, if_neg h4, if_neg h5, if_neg h6,
          if_neg h7, if_neg h8, if_neg h9, if_pos h10]
      rw [he]
      simp only [List.cons_append, List.nil_append]
      rw [parseGoStringBody_esc2028 c _ h10, ih]; rfl
    by_cases h11 : c.toNat = 8233
    · have he : escGoChar c = ['\\', 'u', '2', '0', '2', '9'] := by
        unfold escGoChar
        rw [if_neg h1, if_neg h2, if_neg h3, if_neg h4, if_neg h5, if_neg h6,
          if_neg h7, if_neg h8, if_neg h9, if_neg h10, if_pos h11]
      rw [he]
      simp only [List.cons_append, List.nil_append]
      rw [parseGoStringBody_esc2029 c _ h11, ih]; rfl
    have he : escGoChar c = [c] := by
      unfold escGoChar
      rw [if_neg h1, if_neg h2, if_neg h3, if_neg h4, if_neg h5, if_neg h6,
        if_neg h7, if_neg h8, if_neg h9, if_neg h10, if_neg h11]
    rw [he]
    simp only [List.cons_append, List.nil_append]
    rw [parseGoStringBody_other c _ h1 h2 h6, ih]; rfl

end GoJson
namespace GoJson

theorem digitsRev_lt_ten : ∀ n, ∀ d ∈ digitsRev n, d < 10 := by
  intro n
  induction n using Nat.strong_induction_on with
  | _ n ih =>
    match n with
    | 0 => simp [digitsRev]
    | m + 1 =>
      rw [digitsRev]
      intro d hd
      rcases List.mem_cons.mp hd with h | h
      · subst h; omega
      · exact ih ((m + 1) / 10) (Nat.div_lt_self (Nat.succ_pos m) (by omega)) d h

theorem natToDecAux_eq : ∀ (n : Nat) (acc : List Char),
    natToDecAux n acc = ((digitsRev n).reverse.map digitChar) ++ acc := by
  intro n
  induction n using Nat.strong_induction_on with
  | _ n ih =>
    match n with
    | 0 => intro acc; simp [natToDecAux, digitsRev]
    | m + 1 =>
      intro acc
      rw [natToDecAux, digitsRev, ih ((m + 1) / 10) (Nat.div_lt_self (Nat.succ_pos m) (by omega))]
      simp [List.append_assoc]

theorem foldl_digits_readback : ∀ n : Nat,
    (digitsRev n).reverse.foldl (fun a d => a * 10 + d) 0 = n := by
  intro n
  induction n using Nat.strong_induction_on with
  | _ n ih =>
    match n with
    | 0 => simp [digitsRev]
    | m + 1 =>
      rw [digitsRev]
      simp only [List.reverse_cons, List.foldl_append,
        ih ((m + 1) / 10) (Nat.div_lt_self (Nat.succ_pos m) (by omega)), List.foldl_cons,
        List.foldl_nil]
      omega

theorem digitVal_digitChar : ∀ d, d < 10 → digitVal (digitChar d) = d := by decide

theorem isDigitCh_digitChar : ∀ d, d < 10 → isDigitCh (digitChar d) = true := by decide

theorem parseDigitsAux_digits : ∀ (ds : List Nat) (acc : Nat) (rest : List Char),
    (∀ d ∈ ds, d < 10) → headNotDigit rest = true →
    parseDigitsAux acc (ds.map digitChar ++ rest) =
      (ds.foldl (fun a d => a * 10 + d) acc, rest) := by
  intro ds
  induction ds with
  | nil =>
    intro acc rest _ hrest
    match rest with
    | [] => simp [parseDigitsAux]
    | c :: r =>
      simp only [headNotDigit, Bool.not_eq_eq_eq_not, Bool.not_true] at hrest
      simp [parseDigitsAux, hrest]
  | cons d ds ih =>
    intro acc rest hds hrest
    have hd : d < 10 := hds d (List.mem_cons_self d ds)
    simp only [List.map_cons, List.cons_append, parseDigitsAux,
      isDigitCh_digitChar d hd, if_pos]
    rw [digitVal_digitChar d hd]
    simp only [List.append_eq]
    rw [ih (acc * 10 + d) rest (fun x hx => hds x (List.mem_cons_of_mem d hx)) hrest]
    simp [List.foldl_cons]

end GoJson
namespace GoJson

theorem digitsRev_ne_nil (n : Nat) (h : 0 < n) : digitsRev n ≠ [] := by
  match n with
  | m + 1 => rw [digitsRev]; exact List.cons_ne_nil _ _

theorem parseNat_natToDec (n : Nat) (rest : List Char) (h : headNotDigit rest = true) :
    parseNat (natToDec n ++ rest) = some (n, rest) := by
  by_cases h0 : n = 0
  · subst h0
    have : natToDec 0 = ['0'] := rfl
    rw [this]
    have hd0 : isDigitCh '0' = true := by decide
    simp only [List.cons_append, List.nil_append, parseNat, hd0, if_pos]
    have := parseDigitsAux_digits [] (digitVal '0') rest (by simp) h
    simp only [List.map_nil, List.nil_append] at this
    rw [this]
    rfl
  · have hpos : 0 < n := Nat.pos_of_ne_zero h0
    have hsh : natToDec n = (digitsRev n).reverse.map digitChar := by
      rw [natToDec, if_neg h0, natToDecAux_eq n [], List.append_nil]
    match hrev : (digitsRev n).reverse with
    | [] => exact absurd (List.reverse_eq_nil_iff.mp hrev) (digitsRev_ne_nil n hpos)
    | d :: ds =>
      have hd : d < 10 := digitsRev_lt_ten n d (List.mem_reverse.mp (hrev ▸ List.mem_cons_self d ds))
      have hds : ∀ x ∈ ds, x < 10 := fun x hx =>
        digitsRev_lt_ten n x (List.mem_reverse.mp (hrev ▸ List.mem_cons_of_mem d hx))
      rw [hsh, hrev]
      simp only [List.map_cons, List.cons_append, parseNat, isDigitCh_digitChar d hd, if_pos]
      rw [digitVal_digitChar d hd, parseDigitsAux_digits ds d rest hds h]
      have : ds.foldl (fun a x => a * 10 + x) d = n := by
        have hfold := foldl_digits_readback n
        rw [hrev] at hfold
        simpa using hfold
      rw [this]

end GoJson
namespace GoJson

theorem natToDec_all_digits (n : Nat) : ∀ c ∈ natToDec n, isDigitCh c = true := by
  by_cases h : n = 0
  · subst h
    intro c hc
    rw [show natToDec 0 = ['0'] from rfl] at hc
    rcases List.mem_singleton.mp hc with rfl
    decide
  · rw [natToDec, if_neg h, natToDecAux_eq n [], List.append_nil]
    intro c hc
    obtain ⟨d, hd, rfl⟩ := List.mem_map.mp hc
    exact isDigitCh_digitChar d (digitsRev_lt_ten n d (List.mem_reverse.mp hd))

theorem natToDec_ne_nil (n : Nat) : natToDec n ≠ [] := by
  by_cases h : n = 0
  · subst h; rw [show natToDec 0 = ['0'] from rfl]; exact List.cons_ne_nil _ _
  · rw [natToDec, if_neg h, natToDecAux_eq n [], List.append_nil]
    intro hc
    exact digitsRev_ne_nil n (Nat.pos_of_ne_zero h)
      (List.reverse_eq_nil_iff.mp (List.map_eq_nil_iff.mp hc))

theorem parseIntTok_dash (X : List Char) :
    parseIntTok ('-' :: X) = (parseNat X).map fun p => (-(p.1 : Int), p.2) := rfl

theorem parseIntTok_cons_ne (c0 : Char) (X : List Char) (hc0 : c0 ≠ '-') :
    parseIntTok (c0 :: X) = (parseNat (c0 :: X)).map fun p => ((p.1 : Int), p.2) := by
  have hstep : parseIntTok (c0 :: X) =
      if c0 = '-' then (parseNat X).map (fun p => (-(p.1 : Int), p.2))
      else (parseNat (c0 :: X)).map fun p => ((p.1 : Int), p.2) := rfl
  rw [hstep, if_neg hc0]

theorem parseIntTok_intToDec (i : Int) (rest : List Char) (h : headNotDigit rest = true) :
    parseIntTok (intToDec i ++ rest) = some (i, rest) := by
  by_cases hneg : i < 0
  · rw [intToDec, if_pos hneg, List.cons_append, parseIntTok_dash,
      parseNat_natToDec i.natAbs rest h]
    simp only [Option.map_some']
    have hi : -(i.natAbs : Int) = i := by omega
    rw [hi]
  · rw [intToDec, if_neg hneg]
    have hex : ∃ c0 t, natToDec i.toNat = c0 :: t := by
      cases hq : natToDec i.toNat with
      | nil => exact absurd hq (natToDec_ne_nil _)
      | cons a b => exact ⟨a, b, rfl⟩
    obtain ⟨c0, t, heq⟩ := hex
    have hdig : isDigitCh c0 = true :=
      natToDec_all_digits _ c0 (heq ▸ List.mem_cons_self c0 t)
    have hc0 : c0 ≠ '-' := by
      intro hc; rw [hc] at hdig; exact absurd hdig (by decide)
    have hadd : natToDec i.toNat ++ rest = c0 :: (t ++ rest) := by rw [heq]; rfl
    rw [hadd, parseIntTok_cons_ne c0 _ hc0, ← hadd,
      parseNat_natToDec i.toNat rest h]
    simp only [Option.map_some']
    rw [Int.toNat_of_nonneg (not_lt.mp hneg)]

end GoJson
namespace GoJson

theorem parseValue_null (rest : List Char) :
    parseValue ('n' :: 'u' :: 'l' :: 'l' :: rest) = some (JVal.jnull, rest) := rfl

theorem parseValue_true (rest : List Char) :
    parseValue ('t' :: 'r' :: 'u' :: 'e' :: rest) = some (JVal.jbool true, rest) := rfl

theorem parseValue_false (rest : List Char) :
    parseValue ('f' :: 'a' :: 'l' :: 's' :: 'e' :: rest) = some (JVal.jbool false, rest) := rfl

theorem parseValue_quote (X : List Char) :
    parseValue ('"' :: X) =
      (parseGoStringBody X).map fun p => (JVal.jstr p.1, p.2) := rfl

theorem parseValue_dash (X : List Char) :
    parseValue ('-' :: X) =
      (parseIntTok ('-' :: X)).map fun p => (JVal.jint p.1, p.2) := rfl

theorem parseValue_digit (c0 : Char) (X : List Char) (h : isDigitCh c0 = true) :
    parseValue (c0 :: X) = (parseIntTok (c0 :: X)).map fun p => (JVal.jint p.1, p.2) := by
  simp only [isDigitCh, Bool.and_eq_true, decide_eq_true_eq] at h
  have hv : c0.toNat = 48 ∨ c0.toNat = 49 ∨ c0.toNat = 50 ∨ c0.toNat = 51 ∨
      c0.toNat = 52 ∨ c0.toNat = 53 ∨ c0.toNat = 54 ∨ c0.toNat = 55 ∨
      c0.toNat = 56 ∨ c0.toNat = 57 := by omega
  rcases hv with h0|h0|h0|h0|h0|h0|h0|h0|h0|h0 <;> rw [← Char.ofNat_toNat c0, h0] <;> rfl

theorem parseMembersAux_succ (f : Nat) (l : List Char) :
    parseMembersAux (f + 1) l =
      match parseGoString (skipWs l) with
      | none => none
      | some (key, r1) =>
        match skipWs r1 with
        | ':' :: r2 =>
          match parseValue r2 with
          | none => none
          | some (v, r3) =>
            match skipWs r3 with
            | ',' :: r4 =>
              match parseMembersAux f r4 with
              | none => none
              | some (ms, r5) => some ((key, v) :: ms, r5)
            | '}' :: r4 => some ([(key, v)], r4)
            | _ => none
        | _ => none := rfl

end GoJson
namespace GoJson

theorem ne_of_toNat_ne (c d : Char) (h : c.toNat ≠ d.toNat) : c ≠ d := fun hc => h (by rw [hc])

theorem skipWs_cons_noWs (c : Char) (l : List Char) (h : isWsCh c = false) :
    skipWs (c :: l) = c :: l := by
  rw [skipWs.eq_def]
  simp [h]

theorem parseValue_render (v : JVal) (rest : List Char) (h : headNotDigit rest = true) :
    parseValue (renderJVal v ++ rest) = some (v, rest) := by
  cases v with
  | jstr s =>
    rw [renderJVal]
    have hsh : encGoString s ++ rest = '"' :: (s.flatMap escGoChar ++ ('"' :: rest)) := by
      rw [encGoString]; simp [List.append_assoc]
    rw [hsh, parseValue_quote, parseGoStringBody_enc]
    rfl
  | jint i =>
    rw [renderJVal]
    by_cases hneg : i < 0
    · have hI := parseIntTok_intToDec i rest h
      rw [intToDec, if_pos hneg, List.cons_append] at hI ⊢
      rw [parseValue_dash, hI]
      rfl
    · have hI := parseIntTok_intToDec i rest h
      rw [intToDec, if_neg hneg] at hI ⊢
      have hex : ∃ c0 t, natToDec i.toNat = c0 :: t := by
        cases hq : natToDec i.toNat with
        | nil => exact absurd hq (natToDec_ne_nil _)
        | cons a b => exact ⟨a, b, rfl⟩
      obtain ⟨c0, t, heq⟩ := hex
      have hdig : isDigitCh c0 = true :=
        natToDec_all_digits _ c0 (heq ▸ List.mem_cons_self c0 t)
      have hadd : natToDec i.toNat ++ rest = c0 :: (t ++ rest) := by rw [heq]; rfl
      rw [hadd] at hI ⊢
      rw [parseValue_digit c0 _ hdig, hI]
      rfl
  | jnull =>
    rw [renderJVal]
    simp only [List.cons_append, List.nil_append]
    exact parseValue_null rest
  | jbool b =>
    cases b with
    | true =>
      rw [renderJVal]
      simp only [List.cons_append, List.nil_append]
      exact parseValue_true rest
    | false =>
      rw [renderJVal]
      simp only [List.cons_append, List.nil_append]
      exact parseValue_false rest

end GoJson
namespace GoJson

theorem parseGoString_quote (X : List Char) : parseGoString ('"' :: X) = parseGoStringBody X := rfl

theorem parseMembersAux_render : ∀ (ms : List (List Char × JVal)) (fuel : Nat) (rest : List Char),
    ms ≠ [] → ms.length ≤ fuel →
    parseMembersAux fuel (renderMembers ms ++ ('}' :: rest)) = some (ms, rest) := by
  intro ms
  induction ms with
  | nil => intro fuel rest hne _; exact absurd rfl hne
  | cons kv tl ih =>
    intro fuel rest _ hlen
    simp only [List.length_cons] at hlen
    obtain ⟨f, rfl⟩ : ∃ f, fuel = f + 1 := ⟨fuel - 1, by omega⟩
    obtain ⟨k, v⟩ := kv
    cases tl with
    | nil =>
      have hsh : renderMembers [(k, v)] ++ ('}' :: rest) =
          '"' :: (k.flatMap escGoChar ++ ('"' :: (':' :: (renderJVal v ++ ('}' :: rest))))) := by
        rw [renderMembers, encGoString]
        simp [List.append_assoc]
      rw [hsh, parseMembersAux_succ, skipWs_cons_noWs _ _ (by decide), parseGoString_quote,
        parseGoStringBody_enc]
      simp only []
      rw [skipWs_cons_noWs _ _ (by decide)]
      simp only []
      rw [parseValue_render v _ (by rfl)]
      simp only []
      rw [skipWs_cons_noWs _ _ (by decide)]
      rfl
    | cons m tl2 =>
      have hsh : renderMembers ((k, v) :: m :: tl2) ++ ('}' :: rest) =
          '"' :: (k.flatMap escGoChar ++ ('"' :: (':' ::
            (renderJVal v ++ (',' :: (renderMembers (m :: tl2) ++ ('}' :: rest))))))) := by
        rw [renderMembers, encGoString]
        simp [List.append_assoc]
      rw [hsh, parseMembersAux_succ, skipWs_cons_noWs _ _ (by decide), parseGoString_quote,
        parseGoStringBody_enc]
      simp only []
      rw [skipWs_cons_noWs _ _ (by decide)]
      simp only []
      rw [parseValue_render v _ (by rfl)]
      simp only []
      rw [skipWs_cons_noWs _ _ (by decide)]
      have hlen2 : (m :: tl2).length ≤ f := by
        simp only [List.length_cons] at hlen ⊢
        omega
      have hstep : (match (',' :: (renderMembers (m :: tl2) ++ ('}' :: rest)) : List Char) with
          | ',' :: r4 =>
            match parseMembersAux f r4 with
            | none => none
            | some (ms, r5) => some (((k, v) :: ms : List (List Char × JVal)), r5)
          | '}' :: r4 => some ([(k, v)], r4)
          | _ => none) =
          match parseMembersAux f (renderMembers (m :: tl2) ++ ('}' :: rest)) with
          | none => none
          | some (ms, r5) => some ((k, v) :: ms, r5) := rfl
      rw [hstep, ih f rest (List.cons_ne_nil m tl2) hlen2]

end GoJson
namespace GoJson

theorem renderMembers_len : ∀ ms : List (List Char × JVal),
    ms.length ≤ (renderMembers ms).length := by
  intro ms
  induction ms with
  | nil => simp [renderMembers]
  | cons kv tl ih =>
    obtain ⟨k, v⟩ := kv
    cases tl with
    | nil => simp [renderMembers, encGoString, List.length_append]
    | cons m tl2 =>
      rw [renderMembers]
      simp only [List.length_append, List.length_cons, encGoString] at ih ⊢
      omega

theorem renderMembers_shape (k : List Char) (v : JVal) (tl : List (List Char × JVal)) :
    ∃ t, renderMembers ((k, v) :: tl) = '"' :: t := by
  cases tl with
  | nil => exact ⟨_, by rw [renderMembers, encGoString]; rfl⟩
  | cons m tl2 => exact ⟨_, by rw [renderMembers, encGoString]; rfl⟩

theorem parseTopObject_brace (R : List Char) :
    parseTopObject ('{' :: R) =
      match skipWs R with
      | [] => none
      | c2 :: r2 =>
        if c2 = '}' then if (skipWs r2).isEmpty then some [] else none
        else
          match parseMembersAux ((c2 :: r2).length + 1) (c2 :: r2) with
          | none => none
          | some (ms, rest) => if (skipWs rest).isEmpty then some ms else none := rfl

theorem parseTopObject_render (ms : List (List Char × JVal)) (hne : ms ≠ []) :
    parseTopObject (renderObj ms) = some ms := by
  obtain ⟨kv, tl, rfl⟩ : ∃ kv tl, ms = kv :: tl := by
    cases ms with
    | nil => exact absurd rfl hne
    | cons a b => exact ⟨a, b, rfl⟩
  obtain ⟨k, v⟩ := kv
  obtain ⟨tb, htb⟩ := renderMembers_shape k v tl
  rw [renderObj, htb, List.cons_append, parseTopObject_brace,
    skipWs_cons_noWs _ _ (by decide)]
  simp only []
  rw [if_neg (by decide : ¬('"' : Char) = '}')]
  have hback : '"' :: (tb ++ ['}']) = renderMembers ((k, v) :: tl) ++ ('}' :: []) := by
    rw [htb]; rfl
  rw [hback]
  have hlb : ((k, v) :: tl).length ≤ (renderMembers ((k, v) :: tl) ++ ('}' :: [])).length + 1 := by
    have hr := renderMembers_len ((k, v) :: tl)
    simp only [List.length_append, List.length_cons] at hr ⊢
    omega
  rw [parseMembersAux_render ((k, v) :: tl) _ [] (List.cons_ne_nil _ _) hlb]
  rfl

end GoJson
namespace GoJson

theorem string_mk_data (s : String) : String.mk s.data = s := rfl

theorem assignWelcome_userID (p : Common.WelcomePayload) (i : Int) :
    assignWelcome p (['u', 's', 'e', 'r', '_', 'i', 'd'], JVal.jint i) =
      some { p with UserID := i } := rfl

theorem assignWelcome_username (p : Common.WelcomePayload) (s : List Char) :
    assignWelcome p (['u', 's', 'e', 'r', 'n', 'a', 'm', 'e'], JVal.jstr s) =
      some { p with Username := String.mk s } := rfl

theorem assignWelcome_message (p : Common.WelcomePayload) (s : List Char) :
    assignWelcome p (['m', 'e', 's', 's', 'a', 'g', 'e'], JVal.jstr s) =
      some { p with Message := String.mk s } := rfl

theorem unmarshal_marshal_welcome (p : Common.WelcomePayload) :
    unmarshalWelcomePayload (marshalWelcomePayload p) = some p := by
  rw [marshalWelcomePayload, unmarshalWelcomePayload,
    parseTopObject_render (welcomeMembers p) (by simp [welcomeMembers])]
  simp [welcomeMembers, List.foldlM, assignWelcome_userID, assignWelcome_username,
    assignWelcome_message, string_mk_data]

theorem assignEmail_userID (p : Common.EmailPayload) (i : Int) :
    assignEmail p (['u', 's', 'e', 'r', '_', 'i', 'd'], JVal.jint i) =
      some { p with UserID := i } := rfl

theorem assignEmail_email (p : Common.EmailPayload) (s : List Char) :
    assignEmail p (['e', 'm', 'a', 'i', 'l'], JVal.jstr s) =
      some { p with Email := String.mk s } := rfl

theorem assignEmail_subject (p : Common.EmailPayload) (s : List Char) :
    assignEmail p (['s', 'u', 'b', 'j', 'e', 'c', 't'], JVal.jstr s) =
      some { p with Subject := String.mk s } := rfl

theorem assignEmail_message (p : Common.EmailPayload) (s : List Char) :
    assignEmail p (['m', 'e', 's', 's', 'a', 'g', 'e'], JVal.jstr s) =
      some { p with Message := String.mk s } := rfl

theorem unmarshal_marshal_email (p : Common.EmailPayload) :
    unmarshalEmailPayload (marshalEmailPayload p) = some p := by
  rw [marshalEmailPayload, unmarshalEmailPayload,
    parseTopObject_render (emailMembers p) (by simp [emailMembers])]
  simp [emailMembers, List.foldlM, assignEmail_userID, assignEmail_email,
    assignEmail_subject, assignEmail_message, string_mk_data]

theorem assignServerInfo_timestamp (p : Common.ServerInfoPayload) (i : Int) :
    assignServerInfo p (['t', 'i', 'm', 'e', 's', 't', 'a', 'm', 'p'], JVal.jint i) =
      some { p with Timestamp := i } := rfl

theorem assignServerInfo_source (p : Common.ServerInfoPayload) (s : List Char) :
    assignServerInfo p (['s', 'o', 'u', 'r', 'c', 'e'], JVal.jstr s) =
      some { p with Source := String.mk s } := rfl

theorem unmarshal_marshal_serverinfo (p : Common.ServerInfoPayload) :
    unmarshalServerInfoPayload (marshalServerInfoPayload p) = some p := by
  rw [marshalServerInfoPayload, unmarshalServerInfoPayload,
    parseTopObject_render (serverInfoMembers p) (by simp [serverInfoMembers])]
  simp [serverInfoMembers, List.foldlM, assignServerInfo_timestamp,
    assignServerInfo_source, string_mk_data]

end GoJson
namespace Main

theorem afterFailures_below_budget (now backoff : Int) (err : String) (maxRetry : Nat) :
    ∀ k, k ≤ maxRetry →
      (afterFailures now backoff err (freshActiveTask maxRetry) k).retryCount = k ∧
      (afterFailures now backoff err (freshActiveTask maxRetry) k).maxRetry = maxRetry ∧
      (afterFailures now backoff err (freshActiveTask maxRetry) k).state ≠
        TaskLifecycleState.archived := by
  intro k
  induction k with
  | zero =>
    intro _
    refine ⟨rfl, rfl, ?_⟩
    intro hc
    exact TaskLifecycleState.noConfusion hc
  | succ k ih =>
    intro hk
    obtain ⟨hrc, hmr, _⟩ := ih (by omega)
    rw [afterFailures, retryTransition, hrc, hmr, if_neg (by omega)]
    exact ⟨rfl, rfl, fun hc => TaskLifecycleState.noConfusion hc⟩

theorem afterFailures_archives (now backoff : Int) (err : String) (maxRetry : Nat) :
    (afterFailures now backoff err (freshActiveTask maxRetry) (maxRetry + 1)).state =
      TaskLifecycleState.archived := by
  obtain ⟨hrc, hmr, _⟩ :=
    afterFailures_below_budget now backoff err maxRetry maxRetry (Nat.le_refl maxRetry)
  rw [afterFailures, retryTransition, hrc, hmr, if_pos (by omega)]

theorem wrrSchedule_demo_counts (n : Nat) :
    dispatchCount "critical" (wrrSchedule demoQueueWeights n) = 6 * n ∧
    dispatchCount "default" (wrrSchedule demoQueueWeights n) = 3 * n ∧
    dispatchCount "low" (wrrSchedule demoQueueWeights n) = n := by
  induction n with
  | zero => refine ⟨rfl, rfl, rfl⟩
  | succ n ih =>
    obtain ⟨h1, h2, h3⟩ := ih
    rw [wrrSchedule]
    simp only [dispatchCount, List.count_append] at h1 h2 h3 ⊢
    rw [h1, h2, h3]
    have hc1 : (wrrCycle demoQueueWeights).count "critical" = 6 := by decide
    have hc2 : (wrrCycle demoQueueWeights).count "default" = 3 := by decide
    have hc3 : (wrrCycle demoQueueWeights).count "low" = 1 := by decide
    rw [hc1, hc2, hc3]
    omega

end Main
namespace Main

open Common GoJson

/-- Claim C1: every payload value the Client enqueues (a `WelcomePayload`,
`EmailPayload` or `ServerInfoPayload`) is marshaled by `json.Marshal`, the
resulting bytes reach the registered wrapper handler unchanged
(`handlerInputBytes` of the constructed task is exactly the marshaled
bytes), and `json.Unmarshal` of those bytes recovers a struct equal to the
original payload: marshal-then-unmarshal is a round trip. -/
theorem client_payload_bytes_roundtrip :
    (∀ p : Common.WelcomePayload,
      handlerInputBytes (newTask Common.TypeWelcomeMessage (marshalWelcomePayload p)) =
        marshalWelcomePayload p ∧
      unmarshalWelcomePayload (marshalWelcomePayload p) = some p) ∧
    (∀ p : Common.EmailPayload,
      handlerInputBytes (newTask Common.TypeEmailTask (marshalEmailPayload p)) =
        marshalEmailPayload p ∧
      unmarshalEmailPayload (marshalEmailPayload p) = some p) ∧
    (∀ p : Common.ServerInfoPayload,
      handlerInputBytes (newTask Common.TypeServerInfo (marshalServerInfoPayload p)) =
        marshalServerInfoPayload p ∧
      unmarshalServerInfoPayload (marshalServerInfoPayload p) = some p) :=
  ⟨fun p => ⟨rfl, unmarshal_marshal_welcome p⟩,
   fun p => ⟨rfl, unmarshal_marshal_email p⟩,
   fun p => ⟨rfl, unmarshal_marshal_serverinfo p⟩⟩

/-- Claim C2: a task whose handler fails on every attempt reaches the
archived state after exactly `max_retry + 1` execution attempts — it is not
yet archived after any `k ≤ max_retry` failed attempts and is archived at
attempt `max_retry + 1`; each non-final retry transition increments
`retry_count` and sets `process_at = now + backoff`, and when the
incremented `retry_count` exceeds `max_retry` the transition archives the
task instead of retrying it. -/
theorem failing_task_archived_after_budget (now backoff : Int) (err : String) (maxRetry : Nat) :
    ((afterFailures now backoff err (freshActiveTask maxRetry) (maxRetry + 1)).state =
        TaskLifecycleState.archived ∧
      (∀ k, k ≤ maxRetry →
        (afterFailures now backoff err (freshActiveTask maxRetry) k).state ≠
          TaskLifecycleState.archived)) ∧
    (∀ t : StoredTask, t.retryCount + 1 ≤ t.maxRetry →
      retryTransition now backoff err t =
        ⟨TaskLifecycleState.retryWait, t.retryCount + 1, t.maxRetry,
          now + backoff, some err⟩) ∧
    (∀ t : StoredTask, t.maxRetry < t.retryCount + 1 →
      (retryTransition now backoff err t).state = TaskLifecycleState.archived) := by
  refine ⟨⟨afterFailures_archives now backoff err maxRetry,
    fun k hk => (afterFailures_below_budget now backoff err maxRetry k hk).2.2⟩, ?_, ?_⟩
  · intro t ht
    rw [retryTransition, if_neg (by omega)]
  · intro t ht
    rw [retryTransition, if_pos (by omega)]

/-- Witness for C2 at `max_retry = 2`, `now = 5`, `backoff = 7`: archived at
the third attempt, not archived after two failures, and the first retry
transition increments the count and sets the process time. -/
theorem failing_task_archived_after_budget_witness :
    (afterFailures 5 7 "boom" (freshActiveTask 2) 3).state = TaskLifecycleState.archived ∧
    (afterFailures 5 7 "boom" (freshActiveTask 2) 2).state ≠ TaskLifecycleState.archived ∧
    retryTransition 5 7 "boom" (freshActiveTask 2) =
      ⟨TaskLifecycleState.retryWait, 1, 2, 12, some "boom"⟩ ∧
    (retryTransition 5 7 "boom" ⟨TaskLifecycleState.active, 2, 2, 0, none⟩).state =
      TaskLifecycleState.archived := by
  have h := failing_task_archived_after_budget 5 7 "boom" 2
  refine ⟨h.1.1, h.1.2 2 (by decide), ?_,
    h.2.2 ⟨TaskLifecycleState.active, 2, 2, 0, none⟩ (by decide)⟩
  have h2 := h.2.1 (freshActiveTask 2) (by decide)
  exact h2.trans (by norm_num [freshActiveTask])

/-- Claim C3: each wrapper handler returns a non-nil error exactly when
`json.Unmarshal` of the task payload fails, and on decode failure the
wrapped decode error is returned with the underlying common handler never
invoked (no handler output lines are produced). -/
theorem wrapper_error_iff_decode_failure :
    (∀ pl : List Char,
      (resultIsError (Main.HandleWelcomeTask (newTask Common.TypeWelcomeMessage pl)).2 = true ↔
        unmarshalWelcomePayload pl = none) ∧
      (unmarshalWelcomePayload pl = none →
        Main.HandleWelcomeTask (newTask Common.TypeWelcomeMessage pl) =
          ([], Except.error "failed to unmarshal welcome payload"))) ∧
    (∀ pl : List Char,
      (resultIsError (Main.HandleEmailTask (newTask Common.TypeEmailTask pl)).2 = true ↔
        unmarshalEmailPayload pl = none) ∧
      (unmarshalEmailPayload pl = none →
        Main.HandleEmailTask (newTask Common.TypeEmailTask pl) =
          ([], Except.error "failed to unmarshal email payload"))) ∧
    (∀ (m : MemStats) (numCPU numGoroutine : Nat) (pl : List Char),
      (resultIsError (Main.HandleServerInfoTask m numCPU numGoroutine
          (newTask Common.TypeServerInfo pl)).2 = true ↔
        unmarshalServerInfoPayload pl = none) ∧
      (unmarshalServerInfoPayload pl = none →
        Main.HandleServerInfoTask m numCPU numGoroutine (newTask Common.TypeServerInfo pl) =
          ([], Except.error "failed to unmarshal server info payload"))) := by
  refine ⟨fun pl => ?_, fun pl => ?_, fun m numCPU numGoroutine pl => ?_⟩
  · have hred : Main.HandleWelcomeTask (newTask Common.TypeWelcomeMessage pl) =
        match unmarshalWelcomePayload pl with
        | none => ([], Except.error "failed to unmarshal welcome payload")
        | some p => Common.HandleWelcomeTask p := rfl
    rw [hred]
    cases h : unmarshalWelcomePayload pl with
    | none => simp [resultIsError]
    | some p => simp [resultIsError, Common.HandleWelcomeTask]
  · have hred : Main.HandleEmailTask (newTask Common.TypeEmailTask pl) =
        match unmarshalEmailPayload pl with
        | none => ([], Except.error "failed to unmarshal email payload")
        | some p => Common.HandleEmailTask p := rfl
    rw [hred]
    cases h : unmarshalEmailPayload pl with
    | none => simp [resultIsError]
    | some p => simp [resultIsError, Common.HandleEmailTask]
  · have hred : Main.HandleServerInfoTask m numCPU numGoroutine
        (newTask Common.TypeServerInfo pl) =
        match unmarshalServerInfoPayload pl with
        | none => ([], Except.error "failed to unmarshal server info payload")
        | some p => Common.HandleServerInfoTask m numCPU numGoroutine p := rfl
    rw [hred]
    cases h : unmarshalServerInfoPayload pl with
    | none => simp [resultIsError]
    | some p => simp [resultIsError, Common.HandleServerInfoTask]

/-- Witness for C3: on the undecodable payload `x` the welcome wrapper
errors with the wrapped decode message and produces no output lines. -/
theorem wrapper_error_iff_decode_failure_witness :
    (resultIsError (Main.HandleWelcomeTask
      (newTask Common.TypeWelcomeMessage ['x'])).2 = true ∧
    Main.HandleWelcomeTask (newTask Common.TypeWelcomeMessage ['x']) =
      ([], Except.error "failed to unmarshal welcome payload")) ∧
    Main.HandleEmailTask (newTask Common.TypeEmailTask ['x']) =
      ([], Except.error "failed to unmarshal email payload") ∧
    Main.HandleServerInfoTask ⟨0, 0, 0, 0, 0, 0, 0⟩ 0 0
      (newTask Common.TypeServerInfo ['x']) =
      ([], Except.error "failed to unmarshal server info payload") := by
  have h := wrapper_error_iff_decode_failure.1 ['x']
  have he := wrapper_error_iff_decode_failure.2.1 ['x']
  have hs := wrapper_error_iff_decode_failure.2.2 ⟨0, 0, 0, 0, 0, 0, 0⟩ 0 0 ['x']
  exact ⟨⟨h.1.mpr (by decide), h.2 (by decide)⟩, he.2 (by decide), hs.2 (by decide)⟩

end Main
namespace Main

open Common GoJson

/-- Claim C4: after the SIGINT/SIGTERM wait, `main` performs exactly the
shutdown steps stop-Scheduler, stop-server, wait-for-consumer, and the
deferred client close, in that order and no other: the post-signal suffix
of `mainEvents` is precisely that sequence, and those four are the only
shutdown steps anywhere in `main`. -/
theorem shutdown_order_main :
    mainEvents.filter isShutdownStep =
      [MainEvent.shutdownScheduler, MainEvent.shutdownServer,
        MainEvent.waitConsumer, MainEvent.closeClient] ∧
    mainEvents.dropWhile (fun e => decide (e ≠ MainEvent.waitForSignal)) =
      [MainEvent.waitForSignal, MainEvent.shutdownScheduler, MainEvent.shutdownServer,
        MainEvent.waitConsumer, MainEvent.closeClient] := by
  refine ⟨by decide, by decide⟩

/-- Claim C5: every `client.Enqueue` call the demo driver issues passes at
most one scheduling modifier, and none passes both `ProcessIn` and
`ProcessAt` (which the spec declares a configuration error, modelled by
`schedOptsValid`). -/
theorem driver_enqueue_single_modifier :
    driverEnqueueCalls.all
      (fun c => schedOptsValid c.opts && decide (c.opts.length ≤ 1)) = true := by
  decide

/-- Claim C6: all three `mux.HandleFunc` registrations happen before the
consumer goroutine running `srv.Run` is launched, no registration occurs
at or after that launch, and every task type the driver enqueues or binds
to a schedule entry has a handler registered before startup. -/
theorem registrations_before_dispatch :
    handlersRegisteredBeforeStart =
      [Common.TypeWelcomeMessage, Common.TypeEmailTask, Common.TypeServerInfo] ∧
    (mainEvents.dropWhile (fun e => decide (e ≠ MainEvent.startConsumer))).all
      (fun e => !isRegisterHandler e) = true ∧
    enqueuedOrScheduledTypes.all
      (fun t => handlersRegisteredBeforeStart.contains t) = true := by
  refine ⟨by decide, by decide, by decide⟩

/-- Claim C7: under the configured weights critical=6, default=3, low=1,
the weighted round-robin dispatch schedule gives the queues exactly
6n : 3n : n dispatch opportunities over n cycles — the 6:3:1 ratio holds
exactly for every n — and no lower-weight queue is starved: whenever any
dispatching has happened, the low and default queues have received
opportunities too. -/
theorem weighted_dispatch_six_three_one (n : Nat) :
    dispatchCount "critical" (wrrSchedule demoQueueWeights n) = 6 * n ∧
    dispatchCount "default" (wrrSchedule demoQueueWeights n) = 3 * n ∧
    dispatchCount "low" (wrrSchedule demoQueueWeights n) = n ∧
    (0 < n →
      0 < dispatchCount "low" (wrrSchedule demoQueueWeights n) ∧
      0 < dispatchCount "default" (wrrSchedule demoQueueWeights n)) := by
  obtain ⟨h1, h2, h3⟩ := wrrSchedule_demo_counts n
  exact ⟨h1, h2, h3, fun hn => ⟨by omega, by omega⟩⟩

/-- Witness for C7 at ten dispatch cycles: 60 critical opportunities and a
nonzero number of low-queue opportunities. -/
theorem weighted_dispatch_six_three_one_witness :
    dispatchCount "critical" (wrrSchedule demoQueueWeights 10) = 60 ∧
    0 < dispatchCount "low" (wrrSchedule demoQueueWeights 10) := by
  have h := weighted_dispatch_six_three_one 10
  exact ⟨h.1.trans (by norm_num), (h.2.2.2 (by decide)).1⟩

/-- Claim C8: `HandleServerInfoTask` never divides by zero: for every
`MemStats` value the average-GC-pause line is the N/A line when `NumGC = 0`,
the division `PauseTotalNs / NumGC` is computed only under the guard
`NumGC > 0`, any produced average comes from a positive `NumGC`, and the
handler's report places exactly this guarded line in its output. -/
theorem server_info_gc_guard (m : MemStats) (numCPU numGoroutine : Nat)
    (p : ServerInfoPayload) :
    (m.NumGC = 0 → gcPauseLine m = OutLine.infoAvgGCPauseNA) ∧
    (0 < m.NumGC → gcPauseLine m = OutLine.infoAvgGCPause (m.PauseTotalNs / m.NumGC)) ∧
    (∀ ns, gcPauseLine m = OutLine.infoAvgGCPause ns → 0 < m.NumGC) ∧
    (Common.HandleServerInfoTask m numCPU numGoroutine p).1.get? 7 = some (gcPauseLine m) := by
  refine ⟨?_, ?_, ?_, rfl⟩
  · intro h0
    rw [gcPauseLine, dif_neg (by omega)]
  · intro hpos
    rw [gcPauseLine, dif_pos hpos]
    rfl
  · intro ns hline
    by_contra hn
    rw [gcPauseLine, dif_neg hn] at hline
    exact OutLine.noConfusion hline

/-- Witness for C8: with `NumGC = 0` the N/A branch is taken; with
`NumGC = 5` and `PauseTotalNs = 100` the average 20 is produced. -/
theorem server_info_gc_guard_witness :
    gcPauseLine ⟨0, 0, 0, 0, 0, 0, 0⟩ = OutLine.infoAvgGCPauseNA ∧
    gcPauseLine ⟨0, 0, 0, 0, 0, 5, 100⟩ = OutLine.infoAvgGCPause 20 ∧
    0 < (⟨0, 0, 0, 0, 0, 5, 100⟩ : MemStats).NumGC := by
  refine ⟨(server_info_gc_guard ⟨0, 0, 0, 0, 0, 0, 0⟩ 0 0 ⟨0, ""⟩).1 rfl, ?_,
    (server_info_gc_guard ⟨0, 0, 0, 0, 0, 5, 100⟩ 0 0 ⟨0, ""⟩).2.2.1 20 (by decide)⟩
  have h := (server_info_gc_guard ⟨0, 0, 0, 0, 0, 5, 100⟩ 0 0 ⟨0, ""⟩).2.1 (by decide)
  exact h.trans (by norm_num)

/-- Claim C9: each of the three common handlers returns nil for every
payload, so a task of these types whose payload decodes successfully
always succeeds at the wrapper level and never takes the retry or archive
path. -/
theorem common_handlers_never_fail :
    (∀ p, (Common.HandleWelcomeTask p).2 = Except.ok ()) ∧
    (∀ p, (Common.HandleEmailTask p).2 = Except.ok ()) ∧
    (∀ (m : MemStats) (numCPU numGoroutine : Nat) (p : ServerInfoPayload),
      (Common.HandleServerInfoTask m numCPU numGoroutine p).2 = Except.ok ()) ∧
    (∀ (pl : List Char) (p : Common.WelcomePayload),
      unmarshalWelcomePayload pl = some p →
      (Main.HandleWelcomeTask (newTask Common.TypeWelcomeMessage pl)).2 = Except.ok ()) ∧
    (∀ (pl : List Char) (p : Common.EmailPayload),
      unmarshalEmailPayload pl = some p →
      (Main.HandleEmailTask (newTask Common.TypeEmailTask pl)).2 = Except.ok ()) ∧
    (∀ (m : MemStats) (numCPU numGoroutine : Nat) (pl : List Char)
        (p : Common.ServerInfoPayload),
      unmarshalServerInfoPayload pl = some p →
      (Main.HandleServerInfoTask m numCPU numGoroutine
        (newTask Common.TypeServerInfo pl)).2 = Except.ok ()) := by
  refine ⟨fun p => rfl, fun p => rfl, fun m a b p => rfl, ?_, ?_, ?_⟩
  · intro pl p h
    have hred : Main.HandleWelcomeTask (newTask Common.TypeWelcomeMessage pl) =
        match unmarshalWelcomePayload pl with
        | none => ([], Except.error "failed to unmarshal welcome payload")
        | some q => Common.HandleWelcomeTask q := rfl
    rw [hred, h]
    rfl
  · intro pl p h
    have hred : Main.HandleEmailTask (newTask Common.TypeEmailTask pl) =
        match unmarshalEmailPayload pl with
        | none => ([], Except.error "failed to unmarshal email payload")
        | some q => Common.HandleEmailTask q := rfl
    rw [hred, h]
    rfl
  · intro m numCPU numGoroutine pl p h
    have hred : Main.HandleServerInfoTask m numCPU numGoroutine
        (newTask Common.TypeServerInfo pl) =
        match unmarshalServerInfoPayload pl with
        | none => ([], Except.error "failed to unmarshal server info payload")
        | some q => Common.HandleServerInfoTask m numCPU numGoroutine q := rfl
    rw [hred, h]
    rfl

/-- Witness for C9: the welcome wrapper succeeds on a concrete decodable
payload. -/
theorem common_handlers_never_fail_witness :
    (Main.HandleWelcomeTask (newTask Common.TypeWelcomeMessage
      (marshalWelcomePayload ⟨1, "a", "b"⟩))).2 = Except.ok () ∧
    (Main.HandleEmailTask (newTask Common.TypeEmailTask
      (marshalEmailPayload ⟨1, "a", "b", "c"⟩))).2 = Except.ok () ∧
    (Main.HandleServerInfoTask ⟨0, 0, 0, 0, 0, 0, 0⟩ 0 0 (newTask Common.TypeServerInfo
      (marshalServerInfoPayload ⟨2, "s"⟩))).2 = Except.ok () :=
  ⟨common_handlers_never_fail.2.2.2.1 _ ⟨1, "a", "b"⟩ (unmarshal_marshal_welcome _),
   common_handlers_never_fail.2.2.2.2.1 _ ⟨1, "a", "b", "c"⟩ (unmarshal_marshal_email _),
   common_handlers_never_fail.2.2.2.2.2 ⟨0, 0, 0, 0, 0, 0, 0⟩ 0 0 _ ⟨2, "s"⟩
     (unmarshal_marshal_serverinfo _)⟩

/-- Claim C10: the periodic server-info schedule entry binds payload bytes
marshaled exactly once at registration time; every firing of the entry
carries byte-identical payload bytes equal to those registration-time
bytes, and decoding them always yields the registration-time `Timestamp`
and source `periodic-monitor` — the timestamp is never refreshed at a
firing. -/
theorem periodic_payload_registration_bytes (regTime : Int) (n m2 : Nat)
    (now1 now2 : Int) :
    (entryFiring (registerServerInfoEntry regTime) n now1).payload =
      (entryFiring (registerServerInfoEntry regTime) m2 now2).payload ∧
    (entryFiring (registerServerInfoEntry regTime) n now1).payload =
      marshalServerInfoPayload ⟨regTime, "periodic-monitor"⟩ ∧
    unmarshalServerInfoPayload
      (entryFiring (registerServerInfoEntry regTime) n now1).payload =
      some ⟨regTime, "periodic-monitor"⟩ :=
  ⟨rfl, rfl, unmarshal_marshal_serverinfo _⟩

end Main
